import Mathlib

/-!
# fortigate_exporter: `internal/config`

A shallow embedding of `src/internal/config/main.go` (the flag declarations, `Init` and
`GetConfig`) together with the properties of the startup-configuration resolver.

The package keeps its state in package-level variables (`parameter`, `savedConfig`) and in
the `flag` package (`flag.Parsed()`); here that state is an explicit record `State` threaded
through `Init` and `GetConfig`.  Calls into libraries (`flag.Parse`, `ioutil.ReadFile`,
`log.Printf`, `log.Fatalf`) are recorded in `State.trace`, so that "reads no file" or "does
not parse again" are statements about the trace.

What the libraries do is kept apart from what `main.go` does:
* the disk is a function from paths to bytes or a system error (`FileSystem`);
* the command line is the record of the options given, typed (`CommandLine`);
* the YAML reader and the `%q` quoting are parameters (`Lib`);
* a log event holds the formatted message, without the time stamp the logger puts first;
* Go `int` values are only copied, never computed with, so they are `Int` here.
-/

namespace Config

/-! ## Data model (main.go, lines 12-38) -/

/-- Go `type Target string`. -/
abbrev Target := String

/-- Go `type Token string`. -/
abbrev Token := String

/-- Go `type AuthKeys map[Target]Token`, as an association list in which a key occurs at
most once (`AuthKeys.set` keeps it so).  The nil map is `[]`. -/
abbrev AuthKeys := List (Target × Token)

/-- Map assignment `m[k] = v`: overwrite the entry of `k` if there is one, else add one. -/
def AuthKeys.set : AuthKeys → Target → Token → AuthKeys
  | [], k, v => [(k, v)]
  | (k', v') :: rest, k, v =>
    if k' = k then (k, v) :: rest else (k', v') :: AuthKeys.set rest k v

/-- Map read `m[k]` with the comma-ok form. -/
def AuthKeys.get : AuthKeys → Target → Option Token
  | [], _ => none
  | (k', v') :: rest, k => if k' = k then some v' else AuthKeys.get rest k

/-- Go `len(m)`. -/
def AuthKeys.len (m : AuthKeys) : Nat := m.length

/-- Go `type LocalCert struct`. -/
structure LocalCert where
  Path : String
  Content : List UInt8
deriving DecidableEq, Repr

/-- Go `type FortiExporterParameter struct`: the values the six flag pointers point to. -/
structure FortiExporterParameter where
  AuthFile : String
  Listen : String
  ScrapeTimeout : Int
  TLSTimeout : Int
  TLSInsecure : Bool
  TlsExtraCAs : String
deriving DecidableEq, Repr

/-- Go `type FortiExporterConfig struct`. -/
structure FortiExporterConfig where
  AuthKeys : AuthKeys
  Listen : String
  ScrapeTimeout : Int
  TLSTimeout : Int
  TLSInsecure : Bool
  TlsExtraCAs : List LocalCert
deriving DecidableEq, Repr

/-- The zero value of `FortiExporterConfig`, which `var savedConfig FortiExporterConfig`
(line 50) starts with. -/
def zeroConfig : FortiExporterConfig :=
  { AuthKeys := [], Listen := "", ScrapeTimeout := 0, TLSTimeout := 0,
    TLSInsecure := false, TlsExtraCAs := [] }

/-! ## Library calls -/

/-- Go `*os.PathError`, the error `ioutil.ReadFile` returns. -/
structure PathError where
  Op : String
  Path : String
  Err : String
deriving DecidableEq, Repr

/-- Go `(*PathError).Error`: `Op + " " + Path + ": " + Err.Error()`. -/
def PathError.Error (e : PathError) : String :=
  e.Op ++ " " ++ e.Path ++ ": " ++ e.Err

/-- Why the operating system refused a read: the failed operation (`open`, `read`) and the
system error text. -/
structure SysErr where
  op : String
  msg : String
deriving DecidableEq, Repr

deriving instance DecidableEq for Except

/-- The files on disk when a call runs: each path is readable with some bytes, or not. -/
abbrev FileSystem := String → Except SysErr (List UInt8)

/-- Go `ioutil.ReadFile(name)`: the bytes, or a `*PathError` carrying `name`. -/
def ReadFile (fs : FileSystem) (name : String) : Except PathError (List UInt8) :=
  match fs name with
  | .ok b => .ok b
  | .error e => .error { Op := e.op, Path := name, Err := e.msg }

/-- The library functions `Init` calls whose results this development does not fix:
* `yamlDecode` is the YAML reader behind `yaml.Unmarshal` for a `map[Target]Token`: the
  key/value pairs it decoded, in document order, and the error it reports, if any;
* `quote` is the `%q` verb of `fmt` on a string (`strconv.Quote`). -/
structure Lib where
  yamlDecode : List UInt8 → List (Target × Token) × Option String
  quote : String → String

/-- Go `yaml.Unmarshal(in, &out)` for `out : AuthKeys`: every decoded pair is assigned into
the map in document order (a later duplicate key overwrites); returns the map and the
error. -/
def yamlUnmarshal (lib : Lib) (input : List UInt8) (out : AuthKeys) :
    AuthKeys × Option String :=
  ((lib.yamlDecode input).1.foldl (fun m kv => AuthKeys.set m kv.1 kv.2) out,
   (lib.yamlDecode input).2)

/-- Splitting a character list at every `sep`; `n` separators give `n + 1` segments. -/
def splitChars (sep : Char) : List Char → List (List Char)
  | [] => [[]]
  | c :: cs =>
    if c = sep then [] :: splitChars sep cs
    else
      match splitChars sep cs with
      | [] => [[c]]
      | seg :: segs => (c :: seg) :: segs

/-- Go `strings.Split(s, sep)` for a one-character separator: `strings.Split("", ",")` is
the one-element list `[""]`.  Go splits bytes and this splits characters; for the comma,
a single byte that is part of no longer UTF-8 sequence, the segments are the same. -/
def stringsSplit (s : String) (sep : Char) : List String :=
  (splitChars sep s.data).map String.mk

/-! ## Process state -/

/-- The library calls `Init` makes, in the order it makes them. -/
inductive Event where
  | flagParse
  | readFile (path : String)
  | logPrintf (msg : String)
  | logFatalf (msg : String)
deriving DecidableEq, Repr

/-- The package-level state: the flag values (`parameter`), `flag.Parsed()`, `savedConfig`,
and the library calls made so far. -/
structure State where
  parameter : FortiExporterParameter
  parsed : Bool
  savedConfig : FortiExporterConfig
  trace : List Event
deriving DecidableEq, Repr

/-- The declared defaults of the six flags (lines 41-48). -/
def parameter : FortiExporterParameter :=
  { AuthFile := "", Listen := ":9710", ScrapeTimeout := 30, TLSTimeout := 10,
    TLSInsecure := false, TlsExtraCAs := "" }

/-- The state of a fresh process, after package initialisation (lines 40-51). -/
def initState : State :=
  { parameter := parameter, parsed := false, savedConfig := zeroConfig, trace := [] }

/-- The options given on the command line, already split and converted by the `flag`
package; `none` is an option that was not given.  A command line the `flag` package
rejects has no value of this type. -/
structure CommandLine where
  authFile : Option String := none
  listen : Option String := none
  scrapeTimeout : Option Int := none
  httpsTimeout : Option Int := none
  insecure : Option Bool := none
  extraCaCerts : Option String := none
deriving DecidableEq, Repr

/-- Go `flag.Parse()`: marks the flag set parsed and stores every given option through its
pointer; an option that was not given keeps its value. -/
def flagParse (cl : CommandLine) (st : State) : State :=
  { st with
    parsed := true
    parameter :=
      { AuthFile := cl.authFile.getD st.parameter.AuthFile
        Listen := cl.listen.getD st.parameter.Listen
        ScrapeTimeout := cl.scrapeTimeout.getD st.parameter.ScrapeTimeout
        TLSTimeout := cl.httpsTimeout.getD st.parameter.TLSTimeout
        TLSInsecure := cl.insecure.getD st.parameter.TLSInsecure
        TlsExtraCAs := cl.extraCaCerts.getD st.parameter.TlsExtraCAs }
    trace := st.trace ++ [Event.flagParse] }

/-- How a call of `Init` ends: it returns `nil`, or `log.Fatalf` prints `msg` and ends the
process (`os.Exit(1)`), so the `return err` after it never runs. -/
inductive Outcome where
  | nil
  | fatal (msg : String)
deriving DecidableEq, Repr

/-- Appending one library call to the trace. -/
def State.emit (st : State) (e : Event) : State :=
  { st with trace := st.trace ++ [e] }

/-! ## `Init` and `GetConfig` (lines 53-106) -/

/-- The loop of lines 83-99 over the segments `strings.Split` returned. -/
def loadExtraCAs (lib : Lib) (fs : FileSystem) : List String → State → Outcome × State
  | [], st => (Outcome.nil, st)
  | eca :: rest, st =>
    if eca = "" then loadExtraCAs lib fs rest st
    else
      match ReadFile fs eca with
      | .error err =>
        let msg := "Failed to read extra CA file " ++ lib.quote eca ++ ": " ++ err.Error
        (Outcome.fatal msg, (st.emit (Event.readFile eca)).emit (Event.logFatalf msg))
      | .ok certs =>
        let certObject : LocalCert := { Path := eca, Content := certs }
        let st1 := st.emit (Event.readFile eca)
        loadExtraCAs lib fs rest
          { st1 with savedConfig :=
              { st1.savedConfig with
                TlsExtraCAs := st1.savedConfig.TlsExtraCAs ++ [certObject] } }

/-- Go `func Init() error` (lines 53-102). -/
def Init (lib : Lib) (fs : FileSystem) (cl : CommandLine) (st : State) : Outcome × State :=
  if st.parsed then (Outcome.nil, st)
  else
    let st1 := flagParse cl st
    let st2 : State :=
      { st1 with savedConfig :=
          { AuthKeys := [], Listen := st1.parameter.Listen,
            ScrapeTimeout := st1.parameter.ScrapeTimeout,
            TLSTimeout := st1.parameter.TLSTimeout,
            TLSInsecure := st1.parameter.TLSInsecure, TlsExtraCAs := [] } }
    let st3 := st2.emit (Event.readFile st2.parameter.AuthFile)
    match ReadFile fs st3.parameter.AuthFile with
    | .error err =>
      let msg := "Failed to read API authentication map file: " ++ err.Error
      (Outcome.fatal msg, st3.emit (Event.logFatalf msg))
    | .ok af =>
      let r := yamlUnmarshal lib af st3.savedConfig.AuthKeys
      let st4 : State := { st3 with savedConfig := { st3.savedConfig with AuthKeys := r.1 } }
      match r.2 with
      | some e =>
        let msg := "Failed to parse API authentication map file: " ++ e
        (Outcome.fatal msg, st4.emit (Event.logFatalf msg))
      | none =>
        let st5 := st4.emit
          (Event.logPrintf ("Loaded " ++ toString st4.savedConfig.AuthKeys.len ++ " API keys"))
        loadExtraCAs lib fs (stringsSplit st5.parameter.TlsExtraCAs ',') st5

/-- Go `func GetConfig() FortiExporterConfig` (lines 104-106): the saved configuration,
and the state it leaves. -/
def GetConfig (st : State) : FortiExporterConfig × State :=
  (st.savedConfig, st)

/-! ## Sample environment -/

/-- A library for samples.  The YAML reader takes the bytes `[1, 2, 3]` for the two-line
example file of the format and no bytes for an empty document, and rejects anything else;
`quote` puts the text between double quotes, which is what `%q` prints for the plain
paths of the samples. -/
def sampleLib : Lib :=
  { yamlDecode := fun b =>
      if b = [1, 2, 3] then
        ([("device-a", "s3cr3t-token-1"), ("device-b", "s3cr3t-token-2")], none)
      else if b = [] then ([], none)
      else ([], some "yaml: unmarshal errors")
    quote := fun s => "\"" ++ s ++ "\"" }

/-- A disk with `auth.yaml`, a malformed `bad.yaml`, `a.pem` and `b.pem`; nothing else can
be opened. -/
def sampleFs : FileSystem := fun p =>
  if p = "auth.yaml" then .ok [1, 2, 3]
  else if p = "bad.yaml" then .ok [7]
  else if p = "a.pem" then .ok [65]
  else if p = "b.pem" then .ok [66, 66]
  else .error { op := "open", msg := "no such file or directory" }

/-- The same disk after every file has been removed. -/
def emptyFs : FileSystem := fun _ =>
  .error { op := "open", msg := "no such file or directory" }

/-- The bytes of the sample disk by path. -/
def sampleContent (p : String) : List UInt8 :=
  if p = "a.pem" then [65] else if p = "b.pem" then [66, 66] else []

/-! ## Auxiliary notions for the statements -/

/-- The file at `p` cannot be read. -/
def unreadable (fs : FileSystem) (p : String) : Bool :=
  match fs p with
  | .ok _ => false
  | .error _ => true

/-- The segments of an `extra-ca-certs` value the loop reads: the non-empty ones. -/
def listedFiles (s : String) : List String :=
  (stringsSplit s ',').filter (fun p => p ≠ "")

/-- The text `msg` contains the text `p`. -/
def mentions (msg p : String) : Prop :=
  p.data <:+: msg.data

/-- The certificates collected from `segs` up to the first unreadable file. -/
def loadedCerts (fs : FileSystem) : List String → List LocalCert
  | [] => []
  | p :: rest =>
    if p = "" then loadedCerts fs rest
    else
      match fs p with
      | .ok b => { Path := p, Content := b } :: loadedCerts fs rest
      | .error _ => []

/-- The certificate of the file at `p`: its path and its bytes, when it can be read. -/
def readCert (fs : FileSystem) (p : String) : Option LocalCert :=
  match fs p with
  | .ok b => some { Path := p, Content := b }
  | .error _ => none

/-- The listed files of an `extra-ca-certs` value that come before the first one that
cannot be read (all of them when every one can be read). -/
def filesBeforeFailure (fs : FileSystem) (s : String) : List String :=
  (listedFiles s).takeWhile (fun p => !unreadable fs p)

/-! ## Intermediate states of `Init` -/

/-- The parameter values `Init` works with on a call that parses the flags. -/
def parsedParameter (cl : CommandLine) (st : State) : FortiExporterParameter :=
  (flagParse cl st).parameter

/-- The state when `Init` has copied the four values and is reading the auth-file
(lines 59-69). -/
def stateAtAuthRead (cl : CommandLine) (st : State) : State :=
  { parameter := parsedParameter cl st
    parsed := true
    savedConfig :=
      { AuthKeys := [], Listen := (parsedParameter cl st).Listen,
        ScrapeTimeout := (parsedParameter cl st).ScrapeTimeout,
        TLSTimeout := (parsedParameter cl st).TLSTimeout,
        TLSInsecure := (parsedParameter cl st).TLSInsecure, TlsExtraCAs := [] }
    trace := st.trace ++ [Event.flagParse, Event.readFile (parsedParameter cl st).AuthFile] }

/-- The state when `yaml.Unmarshal` has returned for the auth-file bytes `af` (line 75). -/
def stateAtUnmarshal (lib : Lib) (cl : CommandLine) (st : State) (af : List UInt8) : State :=
  { stateAtAuthRead cl st with
    savedConfig :=
      { (stateAtAuthRead cl st).savedConfig with AuthKeys := (yamlUnmarshal lib af []).1 } }

/-- The state when the loop over the extra CA files starts (line 83). -/
def stateAtLoop (lib : Lib) (cl : CommandLine) (st : State) (af : List UInt8) : State :=
  (stateAtUnmarshal lib cl st af).emit
    (Event.logPrintf ("Loaded " ++ toString (yamlUnmarshal lib af []).1.len ++ " API keys"))

/-! ## The loop over the extra CA files -/

theorem readFile_ok {fs : FileSystem} {p : String} {b : List UInt8} (h : fs p = .ok b) :
    ReadFile fs p = .ok b := by
  simp [ReadFile, h]

theorem readFile_error {fs : FileSystem} {p : String} {e : SysErr} (h : fs p = .error e) :
    ReadFile fs p = .error { Op := e.op, Path := p, Err := e.msg } := by
  simp [ReadFile, h]

theorem unreadable_false_iff (fs : FileSystem) (p : String) :
    unreadable fs p = false ↔ ∃ b, fs p = .ok b := by
  unfold unreadable
  cases h : fs p <;> simp

theorem unreadable_true_iff (fs : FileSystem) (p : String) :
    unreadable fs p = true ↔ ∃ e, fs p = .error e := by
  unfold unreadable
  cases h : fs p <;> simp

/-- The loop leaves the flag values, the parsed mark and every field of the saved
configuration other than `TlsExtraCAs` as they were. -/
theorem loadExtraCAs_frame (lib : Lib) (fs : FileSystem) (segs : List String) (st : State) :
    (loadExtraCAs lib fs segs st).2.parameter = st.parameter ∧
    (loadExtraCAs lib fs segs st).2.parsed = st.parsed ∧
    (loadExtraCAs lib fs segs st).2.savedConfig.AuthKeys = st.savedConfig.AuthKeys ∧
    (loadExtraCAs lib fs segs st).2.savedConfig.Listen = st.savedConfig.Listen ∧
    (loadExtraCAs lib fs segs st).2.savedConfig.ScrapeTimeout = st.savedConfig.ScrapeTimeout ∧
    (loadExtraCAs lib fs segs st).2.savedConfig.TLSTimeout = st.savedConfig.TLSTimeout ∧
    (loadExtraCAs lib fs segs st).2.savedConfig.TLSInsecure = st.savedConfig.TLSInsecure := by
  induction segs generalizing st with
  | nil => simp [loadExtraCAs]
  | cons p rest ih =>
    unfold loadExtraCAs
    by_cases hp : p = ""
    · simp only [hp, if_true]
      exact ih st
    · simp only [hp, if_false]
      cases hr : ReadFile fs p with
      | error e => simp [State.emit]
      | ok b =>
        simp only []
        have h := ih { st.emit (Event.readFile p) with
          savedConfig := { (st.emit (Event.readFile p)).savedConfig with
            TlsExtraCAs := (st.emit (Event.readFile p)).savedConfig.TlsExtraCAs ++
              [{ Path := p, Content := b }] } }
        simpa [State.emit] using h

/-- The certificates the loop has appended when it stops, whether it fails or not. -/
theorem loadExtraCAs_certs (lib : Lib) (fs : FileSystem) (segs : List String) (st : State) :
    (loadExtraCAs lib fs segs st).2.savedConfig.TlsExtraCAs =
      st.savedConfig.TlsExtraCAs ++ loadedCerts fs segs := by
  induction segs generalizing st with
  | nil => simp [loadExtraCAs, loadedCerts]
  | cons p rest ih =>
    unfold loadExtraCAs loadedCerts
    by_cases hp : p = ""
    · simp only [hp, if_true]
      exact ih st
    · simp only [hp, if_false]
      cases hr : fs p with
      | error e => simp [readFile_error hr, State.emit]
      | ok b =>
        simp only [readFile_ok hr]
        rw [ih]
        simp [State.emit]

/-- The loop returns `nil` exactly when every non-empty segment can be read. -/
theorem loadExtraCAs_nil_iff (lib : Lib) (fs : FileSystem) (segs : List String) (st : State) :
    (loadExtraCAs lib fs segs st).1 = Outcome.nil ↔
      ∀ p ∈ segs, p ≠ "" → unreadable fs p = false := by
  induction segs generalizing st with
  | nil => simp [loadExtraCAs]
  | cons p rest ih =>
    unfold loadExtraCAs
    by_cases hp : p = ""
    · simp only [hp, if_true]
      rw [ih]
      simp
    · simp only [hp, if_false]
      cases hr : fs p with
      | error e =>
        have hu : unreadable fs p = true := (unreadable_true_iff fs p).2 ⟨e, hr⟩
        simp [readFile_error hr, hp, hu]
      | ok b =>
        have hu : unreadable fs p = false := (unreadable_false_iff fs p).2 ⟨b, hr⟩
        simp only [readFile_ok hr]
        rw [ih]
        simp [hu]

/-- The loop ends in `nil` or in a fatal log call whose message is the last event. -/
theorem loadExtraCAs_fatal_last (lib : Lib) (fs : FileSystem) (segs : List String) (st : State)
    (msg : String) (h : (loadExtraCAs lib fs segs st).1 = Outcome.fatal msg) :
    ∃ evs, (loadExtraCAs lib fs segs st).2.trace = evs ++ [Event.logFatalf msg] := by
  induction segs generalizing st with
  | nil => simp [loadExtraCAs] at h
  | cons p rest ih =>
    unfold loadExtraCAs at h ⊢
    by_cases hp : p = ""
    · simp only [hp, if_true] at h ⊢
      exact ih st h
    · simp only [hp, if_false] at h ⊢
      cases hr : fs p with
      | error e =>
        simp only [readFile_error hr, Outcome.fatal.injEq] at h ⊢
        exact ⟨_, by rw [← h]; rfl⟩
      | ok b =>
        simp only [readFile_ok hr] at h ⊢
        exact ih _ h

/-- When the first unreadable non-empty segment is `p`, the loop ends in the fatal log call
for `p`. -/
theorem loadExtraCAs_first_unreadable (lib : Lib) (fs : FileSystem) (segs : List String)
    (st : State) (p : String)
    (h : (segs.filter (fun q => q ≠ "")).find? (unreadable fs) = some p) :
    ∃ e, fs p = .error e ∧
      (loadExtraCAs lib fs segs st).1 =
        Outcome.fatal ("Failed to read extra CA file " ++ lib.quote p ++ ": " ++
          PathError.Error { Op := e.op, Path := p, Err := e.msg }) := by
  induction segs generalizing st with
  | nil => simp at h
  | cons q rest ih =>
    unfold loadExtraCAs
    by_cases hq : q = ""
    · simp only [hq, if_true]
      apply ih
      simpa [hq] using h
    · simp only [hq, if_false]
      cases hr : fs q with
      | error e =>
        have hu : unreadable fs q = true := (unreadable_true_iff fs q).2 ⟨e, hr⟩
        have hpq : q = p := by simpa [hq, hu] using h
        subst hpq
        exact ⟨e, hr, by simp [readFile_error hr]⟩
      | ok b =>
        have hu : unreadable fs q = false := (unreadable_false_iff fs q).2 ⟨b, hr⟩
        simp only [readFile_ok hr]
        apply ih
        simpa [hq, hu] using h

/-- The reads the loop makes when every non-empty segment can be read. -/
theorem loadExtraCAs_trace (lib : Lib) (fs : FileSystem) (segs : List String) (st : State)
    (h : ∀ p ∈ segs, p ≠ "" → unreadable fs p = false) :
    (loadExtraCAs lib fs segs st).2.trace =
      st.trace ++ (segs.filter (fun q => q ≠ "")).map Event.readFile := by
  induction segs generalizing st with
  | nil => simp [loadExtraCAs]
  | cons p rest ih =>
    have hrest : ∀ q ∈ rest, q ≠ "" → unreadable fs q = false :=
      fun q hq => h q (List.mem_cons_of_mem _ hq)
    unfold loadExtraCAs
    by_cases hp : p = ""
    · simp only [hp, if_true]
      rw [ih st hrest]
      simp
    · simp only [hp, if_false]
      obtain ⟨b, hr⟩ := (unreadable_false_iff fs p).1 (h p (List.mem_cons_self _ _) hp)
      simp only [readFile_ok hr]
      rw [ih _ hrest]
      simp [State.emit, hp]

/-- With every non-empty segment readable, `loadedCerts` is one certificate per non-empty
segment, in order. -/
theorem loadedCerts_all (fs : FileSystem) (segs : List String) (content : String → List UInt8)
    (h : ∀ p ∈ segs, p ≠ "" → fs p = .ok (content p)) :
    loadedCerts fs segs =
      (segs.filter (fun q => q ≠ "")).map (fun q => { Path := q, Content := content q }) := by
  induction segs with
  | nil => simp [loadedCerts]
  | cons p rest ih =>
    have hrest : ∀ q ∈ rest, q ≠ "" → fs q = .ok (content q) :=
      fun q hq => h q (List.mem_cons_of_mem _ hq)
    unfold loadedCerts
    by_cases hp : p = ""
    · simp only [hp, if_true]
      rw [ih hrest]
      simp
    · simp only [hp, if_false]
      rw [h p (List.mem_cons_self _ _) hp, ih hrest]
      simp [hp]

/-- Whatever `loadedCerts` holds was read from the file it names, and the paths are the
leading non-empty segments. -/
theorem loadedCerts_sound (fs : FileSystem) (segs : List String) :
    (∀ c ∈ loadedCerts fs segs, fs c.Path = .ok c.Content) ∧
    ∃ post, segs.filter (fun q => q ≠ "") = (loadedCerts fs segs).map LocalCert.Path ++ post := by
  induction segs with
  | nil => simp [loadedCerts]
  | cons p rest ih =>
    unfold loadedCerts
    by_cases hp : p = ""
    · simp only [hp, if_true]
      simpa using ih
    · simp only [hp, if_false]
      cases hr : fs p with
      | error e => simp
      | ok b =>
        obtain ⟨h1, post, h2⟩ := ih
        refine ⟨?_, post, ?_⟩
        · intro c hc
          rcases List.mem_cons.1 hc with rfl | hc
          · exact hr
          · exact h1 c hc
        · simpa [hp] using h2

/-- The certificates collected from `segs` are exactly those of the non-empty segments
before the first unreadable one, in order. -/
theorem loadedCerts_eq_takeWhile (fs : FileSystem) (segs : List String) :
    loadedCerts fs segs =
      ((segs.filter (fun q => q ≠ "")).takeWhile (fun q => !unreadable fs q)).filterMap
        (readCert fs) := by
  induction segs with
  | nil => simp [loadedCerts]
  | cons p rest ih =>
    unfold loadedCerts
    by_cases hp : p = ""
    · simp only [hp, if_true]
      rw [ih]
      simp
    · simp only [hp, if_false]
      cases hr : fs p with
      | error e =>
        have hu : unreadable fs p = true := (unreadable_true_iff fs p).2 ⟨e, hr⟩
        simp [hp, hu]
      | ok b =>
        have hu : unreadable fs p = false := (unreadable_false_iff fs p).2 ⟨b, hr⟩
        rw [ih]
        simp [hp, hu, readCert, hr]

/-- The loop only adds to the trace. -/
theorem loadExtraCAs_trace_extends (lib : Lib) (fs : FileSystem) (segs : List String)
    (st : State) : ∃ evs, (loadExtraCAs lib fs segs st).2.trace = st.trace ++ evs := by
  induction segs generalizing st with
  | nil => exact ⟨[], by simp [loadExtraCAs]⟩
  | cons p rest ih =>
    unfold loadExtraCAs
    by_cases hp : p = ""
    · simp only [hp, if_true]
      exact ih st
    · simp only [hp, if_false]
      cases hr : ReadFile fs p with
      | error e =>
        exact ⟨[Event.readFile p, Event.logFatalf
          ("Failed to read extra CA file " ++ lib.quote p ++ ": " ++ e.Error)],
          by simp [State.emit, List.append_assoc]⟩
      | ok b =>
        obtain ⟨evs, hevs⟩ := ih { st.emit (Event.readFile p) with
          savedConfig := { (st.emit (Event.readFile p)).savedConfig with
            TlsExtraCAs := (st.emit (Event.readFile p)).savedConfig.TlsExtraCAs ++
              [{ Path := p, Content := b }] } }
        exact ⟨Event.readFile p :: evs, by simpa [State.emit, List.append_assoc] using hevs⟩

/-! ## The paths through `Init` -/

theorem Init_of_parsed (lib : Lib) (fs : FileSystem) (cl : CommandLine) (st : State)
    (h : st.parsed = true) : Init lib fs cl st = (Outcome.nil, st) := by
  simp [Init, h]

theorem Init_of_auth_error (lib : Lib) (fs : FileSystem) (cl : CommandLine) (st : State)
    (h : st.parsed = false) (e : SysErr) (he : fs (parsedParameter cl st).AuthFile = .error e) :
    Init lib fs cl st =
      (Outcome.fatal ("Failed to read API authentication map file: " ++
          PathError.Error { Op := e.op, Path := (parsedParameter cl st).AuthFile, Err := e.msg }),
       (stateAtAuthRead cl st).emit (Event.logFatalf
         ("Failed to read API authentication map file: " ++
          PathError.Error
            { Op := e.op, Path := (parsedParameter cl st).AuthFile, Err := e.msg }))) := by
  have hr := readFile_error he
  simp only [parsedParameter] at hr
  simp [Init, h, State.emit, flagParse, stateAtAuthRead, parsedParameter] at hr ⊢
  rw [hr]

theorem Init_of_yaml_error (lib : Lib) (fs : FileSystem) (cl : CommandLine) (st : State)
    (h : st.parsed = false) (af : List UInt8)
    (ha : fs (parsedParameter cl st).AuthFile = .ok af) (e : String)
    (hy : (lib.yamlDecode af).2 = some e) :
    Init lib fs cl st =
      (Outcome.fatal ("Failed to parse API authentication map file: " ++ e),
       (stateAtUnmarshal lib cl st af).emit (Event.logFatalf
         ("Failed to parse API authentication map file: " ++ e))) := by
  have hr := readFile_ok ha
  have hy2 : (yamlUnmarshal lib af []).2 = some e := hy
  simp only [parsedParameter] at hr
  simp [Init, h, State.emit, flagParse, stateAtAuthRead, stateAtUnmarshal, parsedParameter]
    at hr ⊢
  rw [hr]
  simp only []
  rw [hy2]

theorem Init_of_auth_ok (lib : Lib) (fs : FileSystem) (cl : CommandLine) (st : State)
    (h : st.parsed = false) (af : List UInt8)
    (ha : fs (parsedParameter cl st).AuthFile = .ok af)
    (hy : (lib.yamlDecode af).2 = none) :
    Init lib fs cl st =
      loadExtraCAs lib fs (stringsSplit (parsedParameter cl st).TlsExtraCAs ',')
        (stateAtLoop lib cl st af) := by
  have hr := readFile_ok ha
  have hy2 : (yamlUnmarshal lib af []).2 = none := hy
  simp only [parsedParameter] at hr
  simp [Init, h, State.emit, flagParse, stateAtAuthRead, stateAtUnmarshal, stateAtLoop,
    parsedParameter] at hr ⊢
  rw [hr]
  simp only []
  rw [hy2]

/-- Every call of `Init` leaves the flag set marked parsed. -/
theorem Init_sets_parsed (lib : Lib) (fs : FileSystem) (cl : CommandLine) (st : State) :
    (Init lib fs cl st).2.parsed = true := by
  cases h : st.parsed with
  | true => rw [Init_of_parsed lib fs cl st h]; exact h
  | false =>
    cases ha : fs (parsedParameter cl st).AuthFile with
    | error e => rw [Init_of_auth_error lib fs cl st h e ha]; rfl
    | ok af =>
      cases hy : (lib.yamlDecode af).2 with
      | some e => rw [Init_of_yaml_error lib fs cl st h af ha e hy]; rfl
      | none =>
        rw [Init_of_auth_ok lib fs cl st h af ha hy]
        exact (loadExtraCAs_frame lib fs _ _).2.1

/-- On a call that parses the flags, the four scalar fields of the saved configuration are
the parsed parameter values, however the call ends. -/
theorem Init_scalars (lib : Lib) (fs : FileSystem) (cl : CommandLine) (st : State)
    (h : st.parsed = false) :
    (Init lib fs cl st).2.savedConfig.Listen = (parsedParameter cl st).Listen ∧
    (Init lib fs cl st).2.savedConfig.ScrapeTimeout = (parsedParameter cl st).ScrapeTimeout ∧
    (Init lib fs cl st).2.savedConfig.TLSTimeout = (parsedParameter cl st).TLSTimeout ∧
    (Init lib fs cl st).2.savedConfig.TLSInsecure = (parsedParameter cl st).TLSInsecure := by
  cases ha : fs (parsedParameter cl st).AuthFile with
  | error e => rw [Init_of_auth_error lib fs cl st h e ha]; exact ⟨rfl, rfl, rfl, rfl⟩
  | ok af =>
    cases hy : (lib.yamlDecode af).2 with
    | some e => rw [Init_of_yaml_error lib fs cl st h af ha e hy]; exact ⟨rfl, rfl, rfl, rfl⟩
    | none =>
      rw [Init_of_auth_ok lib fs cl st h af ha hy]
      obtain ⟨-, -, -, h1, h2, h3, h4⟩ := loadExtraCAs_frame lib fs
        (stringsSplit (parsedParameter cl st).TlsExtraCAs ',') (stateAtLoop lib cl st af)
      exact ⟨h1, h2, h3, h4⟩

/-- A call that parses the flags and returns `nil` has read and decoded the auth-file and
run the loop to its end. -/
theorem Init_nil_inv (lib : Lib) (fs : FileSystem) (cl : CommandLine) (st : State)
    (h : st.parsed = false) (hok : (Init lib fs cl st).1 = Outcome.nil) :
    ∃ af, fs (parsedParameter cl st).AuthFile = .ok af ∧ (lib.yamlDecode af).2 = none ∧
      Init lib fs cl st =
        loadExtraCAs lib fs (stringsSplit (parsedParameter cl st).TlsExtraCAs ',')
          (stateAtLoop lib cl st af) := by
  cases ha : fs (parsedParameter cl st).AuthFile with
  | error e =>
    rw [Init_of_auth_error lib fs cl st h e ha] at hok
    simp at hok
  | ok af =>
    cases hy : (lib.yamlDecode af).2 with
    | some e =>
      rw [Init_of_yaml_error lib fs cl st h af ha e hy] at hok
      simp at hok
    | none => exact ⟨af, rfl, hy, Init_of_auth_ok lib fs cl st h af ha hy⟩

/-! ## Go maps as association lists -/

theorem AuthKeys.set_fresh (m : AuthKeys) (k : Target) (v : Token)
    (h : k ∉ m.map Prod.fst) : AuthKeys.set m k v = m ++ [(k, v)] := by
  induction m with
  | nil => rfl
  | cons kv rest ih =>
    obtain ⟨k', v'⟩ := kv
    simp only [List.map_cons, List.mem_cons, not_or] at h
    have hne : ¬ k' = k := fun hk => h.1 hk.symm
    simp [AuthKeys.set, hne, ih h.2]

theorem AuthKeys.foldl_set_fresh (kvs : List (Target × Token)) (m : AuthKeys)
    (h : ((m ++ kvs).map Prod.fst).Nodup) :
    kvs.foldl (fun m kv => AuthKeys.set m kv.1 kv.2) m = m ++ kvs := by
  induction kvs generalizing m with
  | nil => simp
  | cons kv rest ih =>
    have hk : kv.1 ∉ m.map Prod.fst := by
      intro hmem
      rw [List.map_append, List.map_cons] at h
      have := (List.nodup_append.1 h).2.2
      exact this hmem (List.mem_cons_self _ _)
    simp only [List.foldl_cons]
    rw [AuthKeys.set_fresh m kv.1 kv.2 hk, ih]
    · simp
    · simpa using h

theorem AuthKeys.get_of_mem (m : AuthKeys) (h : (m.map Prod.fst).Nodup) (k : Target) (v : Token)
    (hm : (k, v) ∈ m) : AuthKeys.get m k = some v := by
  induction m with
  | nil => simp at hm
  | cons kv rest ih =>
    obtain ⟨k', v'⟩ := kv
    simp only [List.map_cons, List.nodup_cons] at h
    rcases List.mem_cons.1 hm with heq | hrest
    · cases heq
      simp [AuthKeys.get]
    · have hne : ¬ k' = k := by
        rintro rfl
        exact h.1 (List.mem_map.2 ⟨(k', v), hrest, rfl⟩)
      simp [AuthKeys.get, hne, ih h.2 hrest]

theorem AuthKeys.mem_of_get (m : AuthKeys) (k : Target) (v : Token)
    (hg : AuthKeys.get m k = some v) : (k, v) ∈ m := by
  induction m with
  | nil => simp [AuthKeys.get] at hg
  | cons kv rest ih =>
    obtain ⟨k', v'⟩ := kv
    by_cases hk : k' = k
    · simp [AuthKeys.get, hk] at hg
      simp [hk, hg]
    · simp only [AuthKeys.get, hk, if_false] at hg
      exact List.mem_cons_of_mem _ (ih hg)

/-! ## Properties of `Init` and `GetConfig` -/

/-- C1: on a first `Init()` (flags not parsed yet) with `extra-ca-certs` given as `s`, when
the auth-file loads and every non-empty comma-separated segment of `s` is a readable file,
`Init()` returns `nil` and `GetConfig().TlsExtraCAs` is exactly the list got by splitting
`s` on `,`, dropping the empty segments, and mapping each remaining segment `p`, in order
and with duplicates, to `LocalCert{Path: p, Content: bytes of p}`; it is empty for `s = ""`
and has the two entries of `a.pem` and `b.pem`, in that order, for `s = "a.pem,,b.pem"`. -/
theorem C1_extra_ca_certs (lib : Lib) (fs : FileSystem) (cl : CommandLine) (st : State)
    (s : String) (af : List UInt8) (content : String → List UInt8)
    (hfirst : st.parsed = false)
    (hs : cl.extraCaCerts = some s)
    (hauth : fs (parsedParameter cl st).AuthFile = .ok af)
    (hyaml : (lib.yamlDecode af).2 = none)
    (hfiles : ∀ p ∈ stringsSplit s ',', p ≠ "" → fs p = .ok (content p)) :
    (Init lib fs cl st).1 = Outcome.nil ∧
    (GetConfig (Init lib fs cl st).2).1.TlsExtraCAs =
      ((stringsSplit s ',').filter (fun p => p ≠ "")).map
        (fun p => { Path := p, Content := content p }) ∧
    (s = "" → (GetConfig (Init lib fs cl st).2).1.TlsExtraCAs = []) ∧
    (s = "a.pem,,b.pem" →
      (GetConfig (Init lib fs cl st).2).1.TlsExtraCAs =
        [{ Path := "a.pem", Content := content "a.pem" },
         { Path := "b.pem", Content := content "b.pem" }]) := by
  have hp : (parsedParameter cl st).TlsExtraCAs = s := by
    simp [parsedParameter, flagParse, hs]
  have hinit := Init_of_auth_ok lib fs cl st hfirst af hauth hyaml
  rw [hp] at hinit
  have hcerts : (GetConfig (Init lib fs cl st).2).1.TlsExtraCAs =
      ((stringsSplit s ',').filter (fun p => p ≠ "")).map
        (fun p => { Path := p, Content := content p }) := by
    show (Init lib fs cl st).2.savedConfig.TlsExtraCAs = _
    rw [hinit, loadExtraCAs_certs, loadedCerts_all fs _ content hfiles]
    rfl
  refine ⟨?_, hcerts, ?_, ?_⟩
  · rw [hinit, loadExtraCAs_nil_iff]
    intro p hmem hne
    exact (unreadable_false_iff fs p).2 ⟨content p, hfiles p hmem hne⟩
  · intro h0
    have hsplit : stringsSplit "" ',' = [""] := by decide
    rw [hcerts, h0, hsplit]
    simp
  · intro h2
    rw [hcerts, h2]
    have hsplit : stringsSplit "a.pem,,b.pem" ',' = ["a.pem", "", "b.pem"] := by decide
    rw [hsplit]
    simp

/-- C1 at the sample disk, for `extra-ca-certs` = `a.pem,,b.pem`. -/
theorem C1_extra_ca_certs_witness :
    (Init sampleLib sampleFs
        { authFile := some "auth.yaml", extraCaCerts := some "a.pem,,b.pem" } initState).1
      = Outcome.nil ∧
    (GetConfig (Init sampleLib sampleFs
        { authFile := some "auth.yaml", extraCaCerts := some "a.pem,,b.pem" } initState).2).1.TlsExtraCAs
      = [{ Path := "a.pem", Content := [65] }, { Path := "b.pem", Content := [66, 66] }] :=
  have h := C1_extra_ca_certs sampleLib sampleFs
    { authFile := some "auth.yaml", extraCaCerts := some "a.pem,,b.pem" } initState
    "a.pem,,b.pem" [1, 2, 3] sampleContent rfl rfl (by decide) (by decide) (by decide)
  ⟨h.1, h.2.2.2 rfl⟩

/-- C2: when a call of `Init()` has returned `nil`, a second call returns `nil`, makes no
library call (it reads no file and does not parse the flags again) and leaves the state,
hence `GetConfig()`, as the first call left it, whatever the files on disk are by then. -/
theorem C2_second_init_noop (lib : Lib) (fs fs' : FileSystem) (cl : CommandLine) (st : State)
    (_hok : (Init lib fs cl st).1 = Outcome.nil) :
    (Init lib fs' cl (Init lib fs cl st).2).1 = Outcome.nil ∧
    (Init lib fs' cl (Init lib fs cl st).2).2.trace = (Init lib fs cl st).2.trace ∧
    (Init lib fs' cl (Init lib fs cl st).2).2 = (Init lib fs cl st).2 ∧
    (GetConfig (Init lib fs' cl (Init lib fs cl st).2).2).1 =
      (GetConfig (Init lib fs cl st).2).1 := by
  have h := Init_of_parsed lib fs' cl (Init lib fs cl st).2 (Init_sets_parsed lib fs cl st)
  rw [h]
  exact ⟨rfl, rfl, rfl, rfl⟩

/-- C2 at the sample disk, with every file removed before the second call. -/
theorem C2_second_init_noop_witness :
    (Init sampleLib sampleFs { authFile := some "auth.yaml", extraCaCerts := some "a.pem" }
      initState).1 = Outcome.nil ∧
    (Init sampleLib emptyFs { authFile := some "auth.yaml", extraCaCerts := some "a.pem" }
      (Init sampleLib sampleFs { authFile := some "auth.yaml", extraCaCerts := some "a.pem" }
        initState).2).1 = Outcome.nil ∧
    (GetConfig (Init sampleLib emptyFs
      { authFile := some "auth.yaml", extraCaCerts := some "a.pem" }
      (Init sampleLib sampleFs { authFile := some "auth.yaml", extraCaCerts := some "a.pem" }
        initState).2).2).1 =
      (GetConfig (Init sampleLib sampleFs
        { authFile := some "auth.yaml", extraCaCerts := some "a.pem" } initState).2).1 :=
  have h := C2_second_init_noop sampleLib sampleFs emptyFs
    { authFile := some "auth.yaml", extraCaCerts := some "a.pem" } initState (by decide)
  ⟨by decide, h.1, h.2.2.2⟩

/-- C6: on a first `Init()` that returns `nil`, with `listen`, `scrape-timeout`,
`https-timeout` and `insecure` given as `L`, `S`, `T` and `B`, `GetConfig()` has
`Listen = L`, `ScrapeTimeout = S`, `TLSTimeout = T` and `TLSInsecure = B`, unchanged,
whatever the auth-file holds and whatever `extra-ca-certs` is. -/
theorem C6_scalars_verbatim (lib : Lib) (fs : FileSystem) (cl : CommandLine) (st : State)
    (L : String) (S T : Int) (B : Bool)
    (hfirst : st.parsed = false)
    (hL : cl.listen = some L) (hS : cl.scrapeTimeout = some S)
    (hT : cl.httpsTimeout = some T) (hB : cl.insecure = some B)
    (_hok : (Init lib fs cl st).1 = Outcome.nil) :
    (GetConfig (Init lib fs cl st).2).1.Listen = L ∧
    (GetConfig (Init lib fs cl st).2).1.ScrapeTimeout = S ∧
    (GetConfig (Init lib fs cl st).2).1.TLSTimeout = T ∧
    (GetConfig (Init lib fs cl st).2).1.TLSInsecure = B := by
  obtain ⟨h1, h2, h3, h4⟩ := Init_scalars lib fs cl st hfirst
  refine ⟨?_, ?_, ?_, ?_⟩
  · show (Init lib fs cl st).2.savedConfig.Listen = L
    rw [h1]; simp [parsedParameter, flagParse, hL]
  · show (Init lib fs cl st).2.savedConfig.ScrapeTimeout = S
    rw [h2]; simp [parsedParameter, flagParse, hS]
  · show (Init lib fs cl st).2.savedConfig.TLSTimeout = T
    rw [h3]; simp [parsedParameter, flagParse, hT]
  · show (Init lib fs cl st).2.savedConfig.TLSInsecure = B
    rw [h4]; simp [parsedParameter, flagParse, hB]

/-- C6 for `scrape-timeout=45`, `https-timeout=5`, `insecure=true`. -/
theorem C6_scalars_verbatim_witness :
    (GetConfig (Init sampleLib sampleFs
      { authFile := some "auth.yaml", listen := some "127.0.0.1:9000", scrapeTimeout := some 45,
        httpsTimeout := some 5, insecure := some true } initState).2).1.Listen
      = "127.0.0.1:9000" ∧
    (GetConfig (Init sampleLib sampleFs
      { authFile := some "auth.yaml", listen := some "127.0.0.1:9000", scrapeTimeout := some 45,
        httpsTimeout := some 5, insecure := some true } initState).2).1.ScrapeTimeout = 45 ∧
    (GetConfig (Init sampleLib sampleFs
      { authFile := some "auth.yaml", listen := some "127.0.0.1:9000", scrapeTimeout := some 45,
        httpsTimeout := some 5, insecure := some true } initState).2).1.TLSTimeout = 5 ∧
    (GetConfig (Init sampleLib sampleFs
      { authFile := some "auth.yaml", listen := some "127.0.0.1:9000", scrapeTimeout := some 45,
        httpsTimeout := some 5, insecure := some true } initState).2).1.TLSInsecure = true :=
  C6_scalars_verbatim sampleLib sampleFs
    { authFile := some "auth.yaml", listen := some "127.0.0.1:9000", scrapeTimeout := some 45,
      httpsTimeout := some 5, insecure := some true } initState
    "127.0.0.1:9000" 45 5 true rfl rfl rfl rfl rfl (by decide)

/-- C7: `GetConfig()` before any `Init()` returns the zero-valued configuration (empty
listen address, zero timeouts, `TLSInsecure` false, no auth key, no certificate), not the
declared defaults `:9710`, 30 and 10; and `GetConfig()` leaves the state as it was, in
every state. -/
theorem C7_getconfig_before_init :
    (GetConfig initState).1 =
      { AuthKeys := [], Listen := "", ScrapeTimeout := 0, TLSTimeout := 0,
        TLSInsecure := false, TlsExtraCAs := [] } ∧
    (GetConfig initState).1.AuthKeys.len = 0 ∧
    (GetConfig initState).1.Listen ≠ parameter.Listen ∧
    (GetConfig initState).1.Listen ≠ ":9710" ∧
    (GetConfig initState).1.ScrapeTimeout ≠ 30 ∧
    (GetConfig initState).1.TLSTimeout ≠ 10 ∧
    ∀ st : State, (GetConfig st).2 = st := by
  refine ⟨rfl, rfl, by decide, by decide, by decide, by decide, fun st => rfl⟩

/-- C10: on a first `Init()` in a fresh process with only `auth-file` given, when it
returns `nil`, `GetConfig()` has the declared defaults `Listen = ":9710"`,
`ScrapeTimeout = 30`, `TLSTimeout = 10`, `TLSInsecure = false`, and an empty `TlsExtraCAs`
(`extra-ca-certs` defaults to `""`). -/
theorem C10_defaults (lib : Lib) (fs : FileSystem) (a : String)
    (hok : (Init lib fs { authFile := some a } initState).1 = Outcome.nil) :
    (GetConfig (Init lib fs { authFile := some a } initState).2).1.Listen = ":9710" ∧
    (GetConfig (Init lib fs { authFile := some a } initState).2).1.ScrapeTimeout = 30 ∧
    (GetConfig (Init lib fs { authFile := some a } initState).2).1.TLSTimeout = 10 ∧
    (GetConfig (Init lib fs { authFile := some a } initState).2).1.TLSInsecure = false ∧
    (GetConfig (Init lib fs { authFile := some a } initState).2).1.TlsExtraCAs = [] ∧
    (parsedParameter { authFile := some a } initState).TlsExtraCAs = "" := by
  obtain ⟨h1, h2, h3, h4⟩ := Init_scalars lib fs { authFile := some a } initState rfl
  obtain ⟨af, -, -, hinit⟩ := Init_nil_inv lib fs { authFile := some a } initState rfl hok
  refine ⟨h1, h2, h3, h4, ?_, rfl⟩
  show (Init lib fs { authFile := some a } initState).2.savedConfig.TlsExtraCAs = []
  rw [hinit, loadExtraCAs_certs]
  have hsplit : stringsSplit (parsedParameter { authFile := some a } initState).TlsExtraCAs ','
      = [""] := by
    show stringsSplit "" ',' = [""]
    decide
  rw [hsplit]
  simp [loadedCerts, stateAtLoop, stateAtUnmarshal, stateAtAuthRead, State.emit]

/-- C10 at the sample disk. -/
theorem C10_defaults_witness :
    (Init sampleLib sampleFs { authFile := some "auth.yaml" } initState).1 = Outcome.nil ∧
    (GetConfig (Init sampleLib sampleFs { authFile := some "auth.yaml" } initState).2).1 =
      { AuthKeys := [("device-a", "s3cr3t-token-1"), ("device-b", "s3cr3t-token-2")],
        Listen := ":9710", ScrapeTimeout := 30, TLSTimeout := 10, TLSInsecure := false,
        TlsExtraCAs := [] } ∧
    (GetConfig (Init sampleLib sampleFs { authFile := some "auth.yaml" } initState).2).1.Listen
      = ":9710" :=
  ⟨by decide, by decide, (C10_defaults sampleLib sampleFs "auth.yaml" (by decide)).1⟩

/-- C4: on a first `Init()` (flags not parsed yet, well-formed command line), `Init()`
fails fatally if and only if the auth-file cannot be read, or its content does not parse,
or some non-empty comma-separated segment of `extra-ca-certs` names a file that cannot be
read; otherwise it returns `nil`.  An unreadable auth-file always makes it fail, and an
empty segment is never the cause of a failure. -/
theorem C4_init_fails_iff (lib : Lib) (fs : FileSystem) (cl : CommandLine) (st : State)
    (hfirst : st.parsed = false) :
    ((∃ msg, (Init lib fs cl st).1 = Outcome.fatal msg) ↔
      (unreadable fs (parsedParameter cl st).AuthFile = true ∨
       (∃ af, fs (parsedParameter cl st).AuthFile = .ok af ∧ (lib.yamlDecode af).2 ≠ none) ∨
       (∃ p ∈ stringsSplit (parsedParameter cl st).TlsExtraCAs ',',
          p ≠ "" ∧ unreadable fs p = true))) ∧
    ((Init lib fs cl st).1 = Outcome.nil ↔
      ¬ (unreadable fs (parsedParameter cl st).AuthFile = true ∨
       (∃ af, fs (parsedParameter cl st).AuthFile = .ok af ∧ (lib.yamlDecode af).2 ≠ none) ∨
       (∃ p ∈ stringsSplit (parsedParameter cl st).TlsExtraCAs ',',
          p ≠ "" ∧ unreadable fs p = true))) ∧
    (unreadable fs (parsedParameter cl st).AuthFile = true →
      ∃ msg, (Init lib fs cl st).1 = Outcome.fatal msg) := by
  have key : (Init lib fs cl st).1 = Outcome.nil ↔
      ¬ (unreadable fs (parsedParameter cl st).AuthFile = true ∨
       (∃ af, fs (parsedParameter cl st).AuthFile = .ok af ∧ (lib.yamlDecode af).2 ≠ none) ∨
       (∃ p ∈ stringsSplit (parsedParameter cl st).TlsExtraCAs ',',
          p ≠ "" ∧ unreadable fs p = true)) := by
    cases ha : fs (parsedParameter cl st).AuthFile with
    | error e =>
      have hu : unreadable fs (parsedParameter cl st).AuthFile = true :=
        (unreadable_true_iff fs _).2 ⟨e, ha⟩
      rw [Init_of_auth_error lib fs cl st hfirst e ha]
      simp [hu]
    | ok af =>
      have hu : unreadable fs (parsedParameter cl st).AuthFile = false :=
        (unreadable_false_iff fs _).2 ⟨af, ha⟩
      cases hy : (lib.yamlDecode af).2 with
      | some e =>
        rw [Init_of_yaml_error lib fs cl st hfirst af ha e hy]
        simp [hu, hy]
      | none =>
        rw [Init_of_auth_ok lib fs cl st hfirst af ha hy, loadExtraCAs_nil_iff]
        simp [hu, hy]
  have split : ∀ o : Outcome, (∃ msg, o = Outcome.fatal msg) ↔ ¬ o = Outcome.nil := by
    intro o
    cases o <;> simp
  refine ⟨?_, key, ?_⟩
  · rw [split, key, not_not]
  · intro hu
    rw [split, key, not_not]
    exact Or.inl hu

/-- C4 at the sample disk: the auth-file `missing.yaml` does not exist, so `Init()` fails;
with `auth.yaml` and the list `a.pem,,b.pem,`, whose empty segments name no readable file,
it returns `nil`. -/
theorem C4_init_fails_iff_witness :
    (∃ msg, (Init sampleLib sampleFs { authFile := some "missing.yaml" } initState).1
      = Outcome.fatal msg) ∧
    unreadable sampleFs "" = true ∧
    (Init sampleLib sampleFs
      { authFile := some "auth.yaml", extraCaCerts := some "a.pem,,b.pem," } initState).1
      = Outcome.nil :=
  ⟨(C4_init_fails_iff sampleLib sampleFs { authFile := some "missing.yaml" } initState
      rfl).2.2 (by decide),
   by decide, by decide⟩

/-- C8: on a first `Init()` that returns `nil`, when the auth-file decodes to the flat
mapping `kvs` of `N` pairs with pairwise different Target keys, `GetConfig().AuthKeys` has
exactly `N` entries, maps every Target of the file to the Token the file gives it, and has
no other entry: it is the mapping built from the file alone, starting from the empty map. -/
theorem C8_auth_keys (lib : Lib) (fs : FileSystem) (cl : CommandLine) (st : State)
    (af : List UInt8) (kvs : List (Target × Token))
    (hfirst : st.parsed = false)
    (hauth : fs (parsedParameter cl st).AuthFile = .ok af)
    (hkvs : lib.yamlDecode af = (kvs, none))
    (huniq : (kvs.map Prod.fst).Nodup)
    (_hok : (Init lib fs cl st).1 = Outcome.nil) :
    (GetConfig (Init lib fs cl st).2).1.AuthKeys.len = kvs.length ∧
    (∀ kv ∈ kvs, (GetConfig (Init lib fs cl st).2).1.AuthKeys.get kv.1 = some kv.2) ∧
    (∀ k v, (GetConfig (Init lib fs cl st).2).1.AuthKeys.get k = some v → (k, v) ∈ kvs) ∧
    (GetConfig (Init lib fs cl st).2).1.AuthKeys = (yamlUnmarshal lib af []).1 := by
  have hy : (lib.yamlDecode af).2 = none := by rw [hkvs]
  have hkeys : (GetConfig (Init lib fs cl st).2).1.AuthKeys = (yamlUnmarshal lib af []).1 := by
    show (Init lib fs cl st).2.savedConfig.AuthKeys = _
    rw [Init_of_auth_ok lib fs cl st hfirst af hauth hy]
    rw [(loadExtraCAs_frame lib fs _ _).2.2.1]
    rfl
  have hbuilt : (yamlUnmarshal lib af []).1 = kvs := by
    simp only [yamlUnmarshal, hkvs]
    rw [AuthKeys.foldl_set_fresh kvs [] (by simpa using huniq)]
    simp
  rw [hkeys, hbuilt]
  refine ⟨rfl, ?_, ?_, rfl⟩
  · intro kv hkv
    exact AuthKeys.get_of_mem kvs huniq kv.1 kv.2 hkv
  · intro k v hg
    exact AuthKeys.mem_of_get kvs k v hg

/-- C8 at the sample disk: the two devices of the example file. -/
theorem C8_auth_keys_witness :
    (GetConfig (Init sampleLib sampleFs { authFile := some "auth.yaml" }
      initState).2).1.AuthKeys.len = 2 ∧
    (GetConfig (Init sampleLib sampleFs { authFile := some "auth.yaml" }
      initState).2).1.AuthKeys.get "device-b" = some "s3cr3t-token-2" :=
  have h := C8_auth_keys sampleLib sampleFs { authFile := some "auth.yaml" } initState
    [1, 2, 3] [("device-a", "s3cr3t-token-1"), ("device-b", "s3cr3t-token-2")]
    rfl (by decide) (by decide) (by decide) (by decide)
  ⟨h.1, h.2.1 ("device-b", "s3cr3t-token-2") (by decide)⟩

/-- C9: on a first `Init()`, when the auth-file cannot be read, `Init()` ends in a fatal log
call whose message contains the auth-file path; when the auth-file loads and `p` is the
first non-empty segment of `extra-ca-certs`, in listed order, that cannot be read, `Init()`
ends in a fatal log call whose message contains `p`.  In both cases the message is the last
thing the process emits. -/
theorem C9_message_names_path (lib : Lib) (fs : FileSystem) (cl : CommandLine) (st : State)
    (hfirst : st.parsed = false) :
    (unreadable fs (parsedParameter cl st).AuthFile = true →
      ∃ msg, (Init lib fs cl st).1 = Outcome.fatal msg ∧
        mentions msg (parsedParameter cl st).AuthFile ∧
        ∃ evs, (Init lib fs cl st).2.trace = evs ++ [Event.logFatalf msg]) ∧
    (∀ af p, fs (parsedParameter cl st).AuthFile = .ok af → (lib.yamlDecode af).2 = none →
      (listedFiles (parsedParameter cl st).TlsExtraCAs).find? (unreadable fs) = some p →
      ∃ msg, (Init lib fs cl st).1 = Outcome.fatal msg ∧ mentions msg p ∧
        ∃ evs, (Init lib fs cl st).2.trace = evs ++ [Event.logFatalf msg]) := by
  constructor
  · intro hu
    obtain ⟨e, he⟩ := (unreadable_true_iff fs _).1 hu
    rw [Init_of_auth_error lib fs cl st hfirst e he]
    refine ⟨_, rfl, ?_, _, rfl⟩
    refine ⟨("Failed to read API authentication map file: " ++ e.op ++ " ").data,
      (": " ++ e.msg).data, ?_⟩
    simp [PathError.Error, String.data_append, List.append_assoc]
  · intro af p ha hy hfind
    rw [Init_of_auth_ok lib fs cl st hfirst af ha hy]
    obtain ⟨e, -, hout⟩ := loadExtraCAs_first_unreadable lib fs
      (stringsSplit (parsedParameter cl st).TlsExtraCAs ',') (stateAtLoop lib cl st af) p hfind
    refine ⟨_, hout, ?_, loadExtraCAs_fatal_last lib fs _ _ _ hout⟩
    refine ⟨("Failed to read extra CA file " ++ lib.quote p ++ ": " ++ e.op ++ " ").data,
      (": " ++ e.msg).data, ?_⟩
    simp [PathError.Error, String.data_append, List.append_assoc]

/-- C9 at the sample disk: `c.pem`, listed after the readable `a.pem` and an empty segment,
does not exist. -/
theorem C9_message_names_path_witness :
    (Init sampleLib sampleFs
      { authFile := some "auth.yaml", extraCaCerts := some "a.pem,,c.pem,d.pem" } initState).1 =
      Outcome.fatal "Failed to read extra CA file \"c.pem\": open c.pem: no such file or directory" ∧
    ∃ msg, (Init sampleLib sampleFs
      { authFile := some "auth.yaml", extraCaCerts := some "a.pem,,c.pem,d.pem" } initState).1 =
      Outcome.fatal msg ∧ mentions msg "c.pem" :=
  have h := (C9_message_names_path sampleLib sampleFs
    { authFile := some "auth.yaml", extraCaCerts := some "a.pem,,c.pem,d.pem" } initState rfl).2
    [1, 2, 3] "c.pem" (by decide) (by decide) (by decide)
  ⟨by decide, h.imp fun _ hm => ⟨hm.1, hm.2.1⟩⟩

/-- C3 fails as stated.  With a missing auth-file, the first `Init()` fails and the saved
configuration at that point is not the zero-valued one it was before the call: it holds
`:9710`, 30 and 10.  With a missing second extra CA file, it fails with the two auth keys
and the certificate of the first file already in the saved configuration. -/
theorem C3_counterexample :
    ((Init sampleLib sampleFs { authFile := some "missing.yaml" } initState).1 =
        Outcome.fatal
          "Failed to read API authentication map file: open missing.yaml: no such file or directory" ∧
      (GetConfig initState).1 = zeroConfig ∧
      (GetConfig (Init sampleLib sampleFs { authFile := some "missing.yaml" } initState).2).1 ≠
        (GetConfig initState).1 ∧
      (GetConfig (Init sampleLib sampleFs { authFile := some "missing.yaml" } initState).2).1 =
        { AuthKeys := [], Listen := ":9710", ScrapeTimeout := 30, TLSTimeout := 10,
          TLSInsecure := false, TlsExtraCAs := [] }) ∧
    ((Init sampleLib sampleFs
        { authFile := some "auth.yaml", extraCaCerts := some "a.pem,c.pem" } initState).1 =
        Outcome.fatal
          "Failed to read extra CA file \"c.pem\": open c.pem: no such file or directory" ∧
      (GetConfig (Init sampleLib sampleFs
        { authFile := some "auth.yaml", extraCaCerts := some "a.pem,c.pem" } initState).2).1 =
        { AuthKeys := [("device-a", "s3cr3t-token-1"), ("device-b", "s3cr3t-token-2")],
          Listen := ":9710", ScrapeTimeout := 30, TLSTimeout := 10, TLSInsecure := false,
          TlsExtraCAs := [{ Path := "a.pem", Content := [65] }] }) := by
  decide

/-- C3, amended: when a first `Init()` fails, it fails in `log.Fatalf`, whose message is the
last thing the process does, so `Init()` does not return to a caller that could read the
configuration.  The saved configuration at that point holds the four scalar values of the
parsed parameters, so it differs from the one before the call whenever one of them differs
from the value saved before.  It holds those four values, no auth key and no certificate
when the auth-file could not be read (the zero-valued configuration again, when the four
values are zero); the auth keys `yaml.Unmarshal` produced and no certificate when the
auth-file did not parse; and, when an extra CA file could not be read, those auth keys and
exactly one certificate, path and bytes, for each listed file before the first unreadable
one, in listed order. -/
theorem C3_state_at_failure (lib : Lib) (fs : FileSystem) (cl : CommandLine) (st : State)
    (msg : String) (hfirst : st.parsed = false)
    (hfail : (Init lib fs cl st).1 = Outcome.fatal msg) :
    (∃ evs, (Init lib fs cl st).2.trace = evs ++ [Event.logFatalf msg]) ∧
    (GetConfig (Init lib fs cl st).2).1.Listen = (parsedParameter cl st).Listen ∧
    (GetConfig (Init lib fs cl st).2).1.ScrapeTimeout = (parsedParameter cl st).ScrapeTimeout ∧
    (GetConfig (Init lib fs cl st).2).1.TLSTimeout = (parsedParameter cl st).TLSTimeout ∧
    (GetConfig (Init lib fs cl st).2).1.TLSInsecure = (parsedParameter cl st).TLSInsecure ∧
    (((parsedParameter cl st).Listen ≠ (GetConfig st).1.Listen ∨
      (parsedParameter cl st).ScrapeTimeout ≠ (GetConfig st).1.ScrapeTimeout ∨
      (parsedParameter cl st).TLSTimeout ≠ (GetConfig st).1.TLSTimeout ∨
      (parsedParameter cl st).TLSInsecure ≠ (GetConfig st).1.TLSInsecure) →
      (GetConfig (Init lib fs cl st).2).1 ≠ (GetConfig st).1) ∧
    (unreadable fs (parsedParameter cl st).AuthFile = true →
      (GetConfig (Init lib fs cl st).2).1.AuthKeys = [] ∧
      (GetConfig (Init lib fs cl st).2).1.TlsExtraCAs = [] ∧
      (GetConfig (Init lib fs cl st).2).1 =
        { AuthKeys := [], Listen := (parsedParameter cl st).Listen,
          ScrapeTimeout := (parsedParameter cl st).ScrapeTimeout,
          TLSTimeout := (parsedParameter cl st).TLSTimeout,
          TLSInsecure := (parsedParameter cl st).TLSInsecure, TlsExtraCAs := [] }) ∧
    (∀ af, fs (parsedParameter cl st).AuthFile = .ok af →
      (GetConfig (Init lib fs cl st).2).1.AuthKeys = (yamlUnmarshal lib af []).1) ∧
    (∀ af, fs (parsedParameter cl st).AuthFile = .ok af → (lib.yamlDecode af).2 ≠ none →
      (GetConfig (Init lib fs cl st).2).1.TlsExtraCAs = []) ∧
    (∀ af, fs (parsedParameter cl st).AuthFile = .ok af → (lib.yamlDecode af).2 = none →
      (GetConfig (Init lib fs cl st).2).1.TlsExtraCAs =
        (filesBeforeFailure fs (parsedParameter cl st).TlsExtraCAs).filterMap (readCert fs) ∧
      (GetConfig (Init lib fs cl st).2).1.TlsExtraCAs.map LocalCert.Path =
        filesBeforeFailure fs (parsedParameter cl st).TlsExtraCAs ∧
      ∃ p, (listedFiles (parsedParameter cl st).TlsExtraCAs).find? (unreadable fs) = some p) := by
  obtain ⟨h1, h2, h3, h4⟩ := Init_scalars lib fs cl st hfirst
  refine ⟨?_, h1, h2, h3, h4, ?_, ?_⟩
  · cases ha : fs (parsedParameter cl st).AuthFile with
    | error e =>
      rw [Init_of_auth_error lib fs cl st hfirst e ha] at hfail ⊢
      simp only [Outcome.fatal.injEq] at hfail
      exact ⟨_, by rw [← hfail]; rfl⟩
    | ok af =>
      cases hy : (lib.yamlDecode af).2 with
      | some e =>
        rw [Init_of_yaml_error lib fs cl st hfirst af ha e hy] at hfail ⊢
        simp only [Outcome.fatal.injEq] at hfail
        exact ⟨_, by rw [← hfail]; rfl⟩
      | none =>
        rw [Init_of_auth_ok lib fs cl st hfirst af ha hy] at hfail ⊢
        exact loadExtraCAs_fatal_last lib fs _ _ msg hfail
  · intro hdiff heq
    have heq2 : (Init lib fs cl st).2.savedConfig = st.savedConfig := heq
    rw [heq2] at h1 h2 h3 h4
    rcases hdiff with hd | hd | hd | hd
    · exact hd h1.symm
    · exact hd h2.symm
    · exact hd h3.symm
    · exact hd h4.symm
  · show (unreadable fs (parsedParameter cl st).AuthFile = true →
        (Init lib fs cl st).2.savedConfig.AuthKeys = [] ∧
        (Init lib fs cl st).2.savedConfig.TlsExtraCAs = [] ∧
        (Init lib fs cl st).2.savedConfig =
          { AuthKeys := [], Listen := (parsedParameter cl st).Listen,
            ScrapeTimeout := (parsedParameter cl st).ScrapeTimeout,
            TLSTimeout := (parsedParameter cl st).TLSTimeout,
            TLSInsecure := (parsedParameter cl st).TLSInsecure, TlsExtraCAs := [] }) ∧
      (∀ af, fs (parsedParameter cl st).AuthFile = .ok af →
        (Init lib fs cl st).2.savedConfig.AuthKeys = (yamlUnmarshal lib af []).1) ∧
      (∀ af, fs (parsedParameter cl st).AuthFile = .ok af → (lib.yamlDecode af).2 ≠ none →
        (Init lib fs cl st).2.savedConfig.TlsExtraCAs = []) ∧
      (∀ af, fs (parsedParameter cl st).AuthFile = .ok af → (lib.yamlDecode af).2 = none →
        (Init lib fs cl st).2.savedConfig.TlsExtraCAs =
          (filesBeforeFailure fs (parsedParameter cl st).TlsExtraCAs).filterMap (readCert fs) ∧
        (Init lib fs cl st).2.savedConfig.TlsExtraCAs.map LocalCert.Path =
          filesBeforeFailure fs (parsedParameter cl st).TlsExtraCAs ∧
        ∃ p, (listedFiles (parsedParameter cl st).TlsExtraCAs).find? (unreadable fs) = some p)
    cases ha : fs (parsedParameter cl st).AuthFile with
    | error e =>
      rw [Init_of_auth_error lib fs cl st hfirst e ha]
      refine ⟨fun _ => ⟨rfl, rfl, rfl⟩, ?_, ?_, ?_⟩
      · intro af h
        cases h
      · intro af h
        cases h
      · intro af h
        cases h
    | ok af =>
      have hu : unreadable fs (parsedParameter cl st).AuthFile = false :=
        (unreadable_false_iff fs _).2 ⟨af, ha⟩
      cases hy : (lib.yamlDecode af).2 with
      | some e =>
        rw [Init_of_yaml_error lib fs cl st hfirst af ha e hy]
        refine ⟨fun h => by simp [hu] at h, ?_, ?_, ?_⟩
        · intro af' h'
          cases h'
          rfl
        · intro af' h' _
          rfl
        · intro af' h' hy'
          cases h'
          rw [hy] at hy'
          cases hy'
      | none =>
        have hinit := Init_of_auth_ok lib fs cl st hfirst af ha hy
        have hc : (Init lib fs cl st).2.savedConfig.TlsExtraCAs =
            (filesBeforeFailure fs (parsedParameter cl st).TlsExtraCAs).filterMap
              (readCert fs) := by
          rw [hinit, loadExtraCAs_certs, loadedCerts_eq_takeWhile]
          simp [stateAtLoop, stateAtUnmarshal, stateAtAuthRead, State.emit,
            filesBeforeFailure, listedFiles]
        have hpaths : ∀ l : List String, (∀ q ∈ l, unreadable fs q = false) →
            (l.filterMap (readCert fs)).map LocalCert.Path = l := by
          intro l
          induction l with
          | nil => simp
          | cons q rest ih =>
            intro hl
            obtain ⟨b, hb⟩ := (unreadable_false_iff fs q).1 (hl q (List.mem_cons_self _ _))
            have hrest := ih (fun r hr => hl r (List.mem_cons_of_mem _ hr))
            simp [readCert, hb, hrest]
        refine ⟨fun h => by simp [hu] at h, ?_, ?_, ?_⟩
        · intro af' h'
          cases h'
          rw [hinit, (loadExtraCAs_frame lib fs _ _).2.2.1]
          rfl
        · intro af' h' hy'
          cases h'
          exact absurd hy hy'
        · intro af' h' _
          cases h'
          refine ⟨hc, ?_, ?_⟩
          · rw [hc]
            apply hpaths
            intro q hq
            have := List.mem_takeWhile_imp hq
            simpa using this
          · rw [hinit] at hfail
            have hnot : ¬ (loadExtraCAs lib fs
                (stringsSplit (parsedParameter cl st).TlsExtraCAs ',')
                (stateAtLoop lib cl st af)).1 = Outcome.nil := by
              rw [hfail]
              simp
            rw [loadExtraCAs_nil_iff] at hnot
            push_neg at hnot
            obtain ⟨q, hq, hne, hunr⟩ := hnot
            have hunr2 : unreadable fs q = true := by simpa using hunr
            have hmem : q ∈ listedFiles (parsedParameter cl st).TlsExtraCAs := by
              simp [listedFiles, hq, hne]
            cases hfind : (listedFiles (parsedParameter cl st).TlsExtraCAs).find?
                (unreadable fs) with
            | some r => exact ⟨r, rfl⟩
            | none =>
              rw [List.find?_eq_none] at hfind
              exact absurd hunr2 (hfind q hmem)

/-- C3, amended, at the sample disk: of `a.pem,b.pem,c.pem,a.pem` the third file is
missing, and the certificates of the first two, no more, are in the saved configuration
when `Init()` fails; with the four scalar options given as zero values and a missing
auth-file, the saved configuration at the failure is the zero-valued one again. -/
theorem C3_state_at_failure_witness :
    (Init sampleLib sampleFs
      { authFile := some "auth.yaml", extraCaCerts := some "a.pem,b.pem,c.pem,a.pem" }
      initState).1 =
      Outcome.fatal "Failed to read extra CA file \"c.pem\": open c.pem: no such file or directory" ∧
    filesBeforeFailure sampleFs "a.pem,b.pem,c.pem,a.pem" = ["a.pem", "b.pem"] ∧
    (GetConfig (Init sampleLib sampleFs
      { authFile := some "auth.yaml", extraCaCerts := some "a.pem,b.pem,c.pem,a.pem" }
      initState).2).1.TlsExtraCAs =
      [{ Path := "a.pem", Content := [65] }, { Path := "b.pem", Content := [66, 66] }] ∧
    (GetConfig (Init sampleLib sampleFs
      { authFile := some "auth.yaml", extraCaCerts := some "a.pem,b.pem,c.pem,a.pem" }
      initState).2).1.TlsExtraCAs =
      (filesBeforeFailure sampleFs "a.pem,b.pem,c.pem,a.pem").filterMap (readCert sampleFs) ∧
    (GetConfig (Init sampleLib sampleFs
      { authFile := some "auth.yaml", extraCaCerts := some "a.pem,b.pem,c.pem,a.pem" }
      initState).2).1 ≠ (GetConfig initState).1 ∧
    (Init sampleLib sampleFs
      { authFile := some "missing.yaml", listen := some "", scrapeTimeout := some 0,
        httpsTimeout := some 0, insecure := some false } initState).1 =
      Outcome.fatal
        "Failed to read API authentication map file: open missing.yaml: no such file or directory" ∧
    (GetConfig (Init sampleLib sampleFs
      { authFile := some "missing.yaml", listen := some "", scrapeTimeout := some 0,
        httpsTimeout := some 0, insecure := some false } initState).2).1 =
      (GetConfig initState).1 :=
  have h := C3_state_at_failure sampleLib sampleFs
    { authFile := some "auth.yaml", extraCaCerts := some "a.pem,b.pem,c.pem,a.pem" } initState
    "Failed to read extra CA file \"c.pem\": open c.pem: no such file or directory"
    rfl (by decide)
  ⟨by decide, by decide, by decide,
   (h.2.2.2.2.2.2.2.2.2 [1, 2, 3] (by decide) (by decide)).1,
   h.2.2.2.2.2.1 (Or.inl (by decide)),
   by decide,
   (C3_state_at_failure sampleLib sampleFs
      { authFile := some "missing.yaml", listen := some "", scrapeTimeout := some 0,
        httpsTimeout := some 0, insecure := some false } initState
      "Failed to read API authentication map file: open missing.yaml: no such file or directory"
      rfl (by decide)).2.2.2.2.2.2.1 (by decide) |>.2.2⟩

/-- C5 fails as stated.  The hosting process has parsed the flags itself (`flag.Parse()`
with `-auth-file auth.yaml -listen :8080`) and no `Init()` has run, so the configuration is
not resolved; `Init()` returns `nil` at once, reads no file, and `GetConfig()` still returns
the zero-valued configuration, not the parameter values. -/
theorem C5_counterexample :
    Init sampleLib sampleFs { authFile := some "auth.yaml", listen := some ":8080" }
        (flagParse { authFile := some "auth.yaml", listen := some ":8080" } initState) =
      (Outcome.nil,
        flagParse { authFile := some "auth.yaml", listen := some ":8080" } initState) ∧
    (Init sampleLib sampleFs { authFile := some "auth.yaml", listen := some ":8080" }
        (flagParse { authFile := some "auth.yaml", listen := some ":8080" } initState)).2.trace =
      [Event.flagParse] ∧
    (GetConfig (Init sampleLib sampleFs { authFile := some "auth.yaml", listen := some ":8080" }
        (flagParse { authFile := some "auth.yaml", listen := some ":8080" } initState)).2).1 =
      zeroConfig ∧
    (flagParse { authFile := some "auth.yaml", listen := some ":8080" }
      initState).parameter.Listen = ":8080" ∧
    (GetConfig (Init sampleLib sampleFs { authFile := some "auth.yaml", listen := some ":8080" }
        (flagParse { authFile := some "auth.yaml", listen := some ":8080" } initState)).2).1.Listen
      ≠ ":8080" ∧
    (Init sampleLib sampleFs { authFile := some "auth.yaml", listen := some ":8080" }
        initState).1 = Outcome.nil ∧
    (GetConfig (Init sampleLib sampleFs { authFile := some "auth.yaml", listen := some ":8080" }
        initState).2).1.Listen = ":8080" := by
  decide

/-- C5, amended: `Init()` takes its immediate no-op path exactly when the flags are already
parsed (`flag.Parsed()`), by an earlier `Init()` or by anyone else.  In every state in which
they are not, `Init()` parses the flags and reads the auth-file first, and when it returns
`nil` it has read the auth-file and then every listed extra CA file, in order, and
`GetConfig()` holds the four parsed parameter values, the auth keys `yaml.Unmarshal`
produced from the auth-file, and one certificate per listed extra CA file, read from that
file. -/
theorem C5_noop_iff_flags_parsed (lib : Lib) (fs : FileSystem) (cl : CommandLine)
    (st : State) :
    (Init lib fs cl st = (Outcome.nil, st) ↔ st.parsed = true) ∧
    (st.parsed = false →
      (Init lib fs cl st).2.parameter = parsedParameter cl st ∧
      (∃ evs, (Init lib fs cl st).2.trace =
        st.trace ++ Event.flagParse :: Event.readFile (parsedParameter cl st).AuthFile :: evs) ∧
      ((Init lib fs cl st).1 = Outcome.nil →
        ∃ af, fs (parsedParameter cl st).AuthFile = .ok af ∧
          (Init lib fs cl st).2.trace =
            st.trace ++ [Event.flagParse, Event.readFile (parsedParameter cl st).AuthFile,
              Event.logPrintf
                ("Loaded " ++ toString (yamlUnmarshal lib af []).1.len ++ " API keys")] ++
              (listedFiles (parsedParameter cl st).TlsExtraCAs).map Event.readFile ∧
          (GetConfig (Init lib fs cl st).2).1.Listen = (parsedParameter cl st).Listen ∧
          (GetConfig (Init lib fs cl st).2).1.ScrapeTimeout =
            (parsedParameter cl st).ScrapeTimeout ∧
          (GetConfig (Init lib fs cl st).2).1.TLSTimeout = (parsedParameter cl st).TLSTimeout ∧
          (GetConfig (Init lib fs cl st).2).1.TLSInsecure =
            (parsedParameter cl st).TLSInsecure ∧
          (GetConfig (Init lib fs cl st).2).1.AuthKeys = (yamlUnmarshal lib af []).1 ∧
          (GetConfig (Init lib fs cl st).2).1.TlsExtraCAs.map LocalCert.Path =
            listedFiles (parsedParameter cl st).TlsExtraCAs ∧
          ∀ c ∈ (GetConfig (Init lib fs cl st).2).1.TlsExtraCAs, fs c.Path = .ok c.Content)) := by
  constructor
  · constructor
    · intro h
      have hp := Init_sets_parsed lib fs cl st
      rw [h] at hp
      exact hp
    · exact Init_of_parsed lib fs cl st
  · intro hfirst
    obtain ⟨h1, h2, h3, h4⟩ := Init_scalars lib fs cl st hfirst
    refine ⟨?_, ?_, ?_⟩
    · cases ha : fs (parsedParameter cl st).AuthFile with
      | error e => rw [Init_of_auth_error lib fs cl st hfirst e ha]; rfl
      | ok af =>
        cases hy : (lib.yamlDecode af).2 with
        | some e => rw [Init_of_yaml_error lib fs cl st hfirst af ha e hy]; rfl
        | none =>
          rw [Init_of_auth_ok lib fs cl st hfirst af ha hy]
          exact (loadExtraCAs_frame lib fs _ _).1
    · cases ha : fs (parsedParameter cl st).AuthFile with
      | error e =>
        rw [Init_of_auth_error lib fs cl st hfirst e ha]
        exact ⟨[Event.logFatalf ("Failed to read API authentication map file: " ++
          PathError.Error
            { Op := e.op, Path := (parsedParameter cl st).AuthFile, Err := e.msg })],
          by simp [State.emit, stateAtAuthRead]⟩
      | ok af =>
        cases hy : (lib.yamlDecode af).2 with
        | some e =>
          rw [Init_of_yaml_error lib fs cl st hfirst af ha e hy]
          exact ⟨[Event.logFatalf ("Failed to parse API authentication map file: " ++ e)],
            by simp [State.emit, stateAtUnmarshal, stateAtAuthRead]⟩
        | none =>
          rw [Init_of_auth_ok lib fs cl st hfirst af ha hy]
          obtain ⟨evs, hevs⟩ := loadExtraCAs_trace_extends lib fs
            (stringsSplit (parsedParameter cl st).TlsExtraCAs ',') (stateAtLoop lib cl st af)
          rw [hevs]
          exact ⟨Event.logPrintf
            ("Loaded " ++ toString (yamlUnmarshal lib af []).1.len ++ " API keys") :: evs,
            by simp [State.emit, stateAtLoop, stateAtUnmarshal, stateAtAuthRead]⟩
    · intro hok
      obtain ⟨af, ha, hy, hinit⟩ := Init_nil_inv lib fs cl st hfirst hok
      have hall : ∀ p ∈ stringsSplit (parsedParameter cl st).TlsExtraCAs ',', p ≠ "" →
          unreadable fs p = false := by
        rw [hinit] at hok
        exact (loadExtraCAs_nil_iff lib fs _ _).1 hok
      have hc : (Init lib fs cl st).2.savedConfig.TlsExtraCAs =
          loadedCerts fs (stringsSplit (parsedParameter cl st).TlsExtraCAs ',') := by
        rw [hinit, loadExtraCAs_certs]
        simp [stateAtLoop, stateAtUnmarshal, stateAtAuthRead, State.emit]
      refine ⟨af, ha, ?_, h1, h2, h3, h4, ?_, ?_, ?_⟩
      · rw [hinit, loadExtraCAs_trace lib fs _ _ hall]
        simp [State.emit, stateAtLoop, stateAtUnmarshal, stateAtAuthRead, listedFiles]
      · show (Init lib fs cl st).2.savedConfig.AuthKeys = _
        rw [hinit, (loadExtraCAs_frame lib fs _ _).2.2.1]
        rfl
      · show ((Init lib fs cl st).2.savedConfig.TlsExtraCAs).map LocalCert.Path = _
        rw [hc]
        have hcontent : ∀ p ∈ stringsSplit (parsedParameter cl st).TlsExtraCAs ',', p ≠ "" →
            fs p = .ok ((fun q => match fs q with | .ok b => b | .error _ => []) p) := by
          intro p hp hne
          obtain ⟨b, hb⟩ := (unreadable_false_iff fs p).1 (hall p hp hne)
          simp [hb]
        rw [loadedCerts_all fs _ _ hcontent]
        simp [listedFiles, Function.comp_def]
      · show ∀ c ∈ (Init lib fs cl st).2.savedConfig.TlsExtraCAs, fs c.Path = .ok c.Content
        rw [hc]
        exact (loadedCerts_sound fs _).1

end Config
